import Mathlib

/-!
Verification of the relay worker and chat widget of this repository.

The worker (a single `fetch` handler) relays chat-completion requests to an
upstream API; the widget keeps a local conversation history.  We model JSON
values, the serialization used by `JSON.stringify`, a parser mirroring
`JSON.parse` (integers instead of floats, the escape set the serializer
emits), and the full branch structure of the handler.
-/

set_option maxHeartbeats 1000000

namespace Loreal

mutual
/-- JSON values as produced by `JSON.parse`: null, booleans, numbers
(modelled as integers), strings, arrays and objects (key order and
duplicate keys kept as parsed). -/
inductive Json where
  | null : Json
  | bool : Bool → Json
  | num : Int → Json
  | str : String → Json
  | arr : JsonArr → Json
  | obj : JsonObj → Json

/-- The element list of a JSON array. -/
inductive JsonArr where
  | nil : JsonArr
  | cons : Json → JsonArr → JsonArr

/-- The entry list of a JSON object. -/
inductive JsonObj where
  | nil : JsonObj
  | cons : String → Json → JsonObj → JsonObj
end

deriving instance DecidableEq for Json, JsonArr, JsonObj

/-- Digit character for a digit value below ten. -/
def digitChar (d : Nat) : Char := Char.ofNat (48 + d)

/-- Numeric value of a digit character. -/
def charDigit (c : Char) : Nat := c.toNat - 48

/-- Whether a character is an ASCII decimal digit. -/
def isDigitChar (c : Char) : Bool := 48 ≤ c.toNat && c.toNat ≤ 57

/-- Whether a character is JSON whitespace. -/
def isWsChar (c : Char) : Bool := c = ' ' || c = '\n' || c = '\t' || c = '\r'

/-- Decimal digits of a natural number, most significant first, with fuel. -/
def natCharsF : Nat → Nat → List Char
  | 0, _ => []
  | f + 1, n =>
    if n < 10 then [digitChar n]
    else natCharsF f (n / 10) ++ [digitChar (n % 10)]

/-- Decimal digits of a natural number, most significant first. -/
def natChars (n : Nat) : List Char := natCharsF (n + 1) n

/-- Decimal representation of an integer, as emitted by `JSON.stringify`. -/
def intChars (i : Int) : List Char :=
  if i < 0 then '-' :: natChars i.natAbs else natChars i.toNat

/-- Escape of one character inside a JSON string literal. -/
def escapeChar (c : Char) : List Char :=
  if c = '"' then ['\\', '"']
  else if c = '\\' then ['\\', '\\']
  else if c = '\n' then ['\\', 'n']
  else if c = '\t' then ['\\', 't']
  else if c = '\r' then ['\\', 'r']
  else [c]

/-- Escape of a character sequence inside a JSON string literal. -/
def escapeString : List Char → List Char
  | [] => []
  | c :: cs => escapeChar c ++ escapeString cs

/-- Serialized JSON string literal, quotes included. -/
def serStr (s : String) : List Char := '"' :: (escapeString s.data ++ ['"'])

mutual
/-- Serialization of a JSON value, mirroring `JSON.stringify` (no spacing). -/
def serJson : Json → List Char
  | .null => "null".data
  | .bool b => if b then "true".data else "false".data
  | .num i => intChars i
  | .str s => serStr s
  | .arr a => '[' :: (serArrItems a ++ [']'])
  | .obj o => '{' :: (serObjItems o ++ ['}'])

/-- Serialization of the items of a JSON array (no enclosing brackets). -/
def serArrItems : JsonArr → List Char
  | .nil => []
  | .cons v tl => serJson v ++ serArrSep tl

/-- Serialization of the remaining items of a JSON array, each preceded by a comma. -/
def serArrSep : JsonArr → List Char
  | .nil => []
  | .cons v tl => ',' :: (serJson v ++ serArrSep tl)

/-- Serialization of the entries of a JSON object (no enclosing braces). -/
def serObjItems : JsonObj → List Char
  | .nil => []
  | .cons k v tl => serStr k ++ (':' :: (serJson v ++ serObjSep tl))

/-- Serialization of the remaining entries of a JSON object, each preceded by a comma. -/
def serObjSep : JsonObj → List Char
  | .nil => []
  | .cons k v tl => ',' :: (serStr k ++ (':' :: (serJson v ++ serObjSep tl)))
end

/-- `JSON.stringify` on a JSON value. -/
def stringify (v : Json) : String := String.mk (serJson v)

/-- Drop leading JSON whitespace. -/
def skipWs : List Char → List Char
  | [] => []
  | c :: cs => if isWsChar c then skipWs cs else c :: cs

/-- Unescape of one character after a backslash in a JSON string literal. -/
def unescapeChar (c : Char) : Option Char :=
  if c = '"' then some '"'
  else if c = '\\' then some '\\'
  else if c = '/' then some '/'
  else if c = 'n' then some '\n'
  else if c = 't' then some '\t'
  else if c = 'r' then some '\r'
  else if c = 'b' then some (Char.ofNat 8)
  else if c = 'f' then some (Char.ofNat 12)
  else none

/-- Parse the body of a JSON string literal after the opening quote,
returning the content and the input after the closing quote. -/
def parseStrBody : List Char → Option (List Char × List Char)
  | [] => none
  | c :: cs =>
    if c = '"' then some ([], cs)
    else if c = '\\' then
      match cs with
      | [] => none
      | e :: cs2 =>
        (unescapeChar e).bind fun u =>
          (parseStrBody cs2).map fun p => (u :: p.1, p.2)
    else (parseStrBody cs).map fun p => (c :: p.1, p.2)

/-- Accumulate decimal digits from the front of the input. -/
def readDigits : List Char → Nat → Nat × List Char
  | [], acc => (acc, [])
  | c :: cs, acc =>
    if isDigitChar c then readDigits cs (acc * 10 + charDigit c) else (acc, c :: cs)

/-- Parse a natural number (at least one digit) from the front of the input. -/
def parseNatNum (l : List Char) : Option (Nat × List Char) :=
  match l with
  | [] => none
  | c :: cs => if isDigitChar c then some (readDigits cs (charDigit c)) else none

/-- Drop an expected literal character sequence from the front of the input. -/
def dropLit : List Char → List Char → Option (List Char)
  | [], l => some l
  | _ :: _, [] => none
  | c :: cs, d :: ds => if c = d then dropLit cs ds else none

mutual
/-- Parse a JSON value (fuel-indexed), mirroring `JSON.parse` on the
fragment the serializer emits (integers for numbers). -/
def parseVal : Nat → List Char → Option (Json × List Char)
  | 0, _ => none
  | f + 1, l =>
    match skipWs l with
    | [] => none
    | c :: r =>
      if c = '"' then (parseStrBody r).map fun p => (Json.str (String.mk p.1), p.2)
      else if c = '[' then (parseArrF f r).map fun p => (Json.arr p.1, p.2)
      else if c = '{' then (parseObjF f r).map fun p => (Json.obj p.1, p.2)
      else if c = '-' then (parseNatNum r).map fun p => (Json.num (-(p.1 : Int)), p.2)
      else if isDigitChar c then (parseNatNum (c :: r)).map fun p => (Json.num (p.1 : Int), p.2)
      else if c = 'n' then (dropLit ['u', 'l', 'l'] r).map fun r2 => (Json.null, r2)
      else if c = 't' then (dropLit ['r', 'u', 'e'] r).map fun r2 => (Json.bool true, r2)
      else if c = 'f' then (dropLit ['a', 'l', 's', 'e'] r).map fun r2 => (Json.bool false, r2)
      else none

/-- Parse the items of a JSON array after the opening bracket. -/
def parseArrF : Nat → List Char → Option (JsonArr × List Char)
  | 0, _ => none
  | f + 1, l =>
    match skipWs l with
    | [] => none
    | c :: r =>
      if c = ']' then some (.nil, r)
      else
        (parseVal f (c :: r)).bind fun p =>
          (parseArrTail f p.2).map fun q => (.cons p.1 q.1, q.2)

/-- Parse the rest of a JSON array after one item: a comma or the closing bracket. -/
def parseArrTail : Nat → List Char → Option (JsonArr × List Char)
  | 0, _ => none
  | f + 1, l =>
    match skipWs l with
    | [] => none
    | c :: r =>
      if c = ']' then some (.nil, r)
      else if c = ',' then
        (parseVal f r).bind fun p =>
          (parseArrTail f p.2).map fun q => (.cons p.1 q.1, q.2)
      else none

/-- Parse the entries of a JSON object after the opening brace. -/
def parseObjF : Nat → List Char → Option (JsonObj × List Char)
  | 0, _ => none
  | f + 1, l =>
    match skipWs l with
    | [] => none
    | c :: r =>
      if c = '}' then some (.nil, r)
      else if c = '"' then
        (parseStrBody r).bind fun p =>
          match skipWs p.2 with
          | [] => none
          | c2 :: r2 =>
            if c2 = ':' then
              (parseVal f r2).bind fun q =>
                (parseObjTail f q.2).map fun t => (.cons (String.mk p.1) q.1 t.1, t.2)
            else none
      else none

/-- Parse the rest of a JSON object after one entry: a comma or the closing brace. -/
def parseObjTail : Nat → List Char → Option (JsonObj × List Char)
  | 0, _ => none
  | f + 1, l =>
    match skipWs l with
    | [] => none
    | c :: r =>
      if c = '}' then some (.nil, r)
      else if c = ',' then
        match skipWs r with
        | [] => none
        | c1 :: r1 =>
          if c1 = '"' then
            (parseStrBody r1).bind fun p =>
              match skipWs p.2 with
              | [] => none
              | c2 :: r2 =>
                if c2 = ':' then
                  (parseVal f r2).bind fun q =>
                    (parseObjTail f q.2).map fun t => (.cons (String.mk p.1) q.1 t.1, t.2)
                else none
          else none
      else none
end

/-- `JSON.parse` on a string: whole-input parse up to surrounding whitespace,
with a coarse failure message. -/
def jsParseE (s : String) : Except String Json :=
  match parseVal (2 * s.length + 4) s.data with
  | some p => if skipWs p.2 = [] then .ok p.1 else .error "Unexpected non-whitespace character after JSON data"
  | none => .error "Unexpected token while parsing JSON"

/-- `JSON.parse` as a partial function, failure collapsed to `none`. -/
def jsParse (s : String) : Option Json := (jsParseE s).toOption

/-- The input starts with a non-digit (or is empty). -/
def headNotDigit : List Char → Prop
  | [] => True
  | c :: _ => isDigitChar c = false

/-! ### Sizes for the parser fuel -/

mutual
/-- Fuel needed by `parseVal` (string and number content cost nothing). -/
def sizeJ : Json → Nat
  | .arr a => sizeA a + 1
  | .obj o => sizeO o + 1
  | _ => 1

/-- Fuel needed by `parseArrF`/`parseArrTail`. -/
def sizeA : JsonArr → Nat
  | .nil => 1
  | .cons v tl => sizeJ v + sizeA tl + 1

/-- Fuel needed by `parseObjF`/`parseObjTail`. -/
def sizeO : JsonObj → Nat
  | .nil => 1
  | .cons _ v tl => sizeJ v + sizeO tl + 1
end

/-! ## The relay worker (the `fetch` handler of the Cloudflare Worker) -/

/-- JS truthiness of `env.OPENAI_API_KEY` (`undefined` and `""` are falsy). -/
def keyTruthy : Option String → Bool
  | none => false
  | some s => if s = "" then false else true

/-- The Worker environment: the optional `OPENAI_API_KEY` secret. -/
structure WEnv where
  apiKey : Option String

/-- An inbound request, as observed by the handler: method, parsed URL
pathname (`none` when `new URL` throws), the two headers it reads, and the
body text that `request.json()` would parse. -/
structure WRequest where
  method : String
  path : Option String
  contentType : Option String
  contentLength : Option String
  body : String

/-- Behaviour of one upstream `fetch` + `text()` pair: either a throw at the
transport level, or a response with status, status text, content type and
raw body text. -/
inductive Upstream where
  | throws (msg : String)
  | resp (status : Nat) (statusText : String) (contentType : Option String) (body : String)

/-- A response emitted by the handler. -/
structure WResponse where
  status : Nat
  headers : List (String × String)
  body : Option String
deriving DecidableEq

/-- The `corsHeaders` object of the worker. -/
def corsHeaders : List (String × String) :=
  [("Access-Control-Allow-Origin", "*"),
   ("Access-Control-Allow-Methods", "GET, POST, OPTIONS"),
   ("Access-Control-Allow-Headers", "Content-Type, Authorization"),
   ("Content-Type", "application/json")]

/-- `new Headers(corsHeaders)` followed by `headers.set('Content-Type', ct)`
when the upstream supplied a content type. -/
def mergeCT : Option String → List (String × String)
  | none => corsHeaders
  | some ct =>
    [("Access-Control-Allow-Origin", "*"),
     ("Access-Control-Allow-Methods", "GET, POST, OPTIONS"),
     ("Access-Control-Allow-Headers", "Content-Type, Authorization"),
     ("Content-Type", ct)]

/-- First-match header lookup. -/
def lookupHeader : List (String × String) → String → Option String
  | [], _ => none
  | (k, v) :: tl, key => if k = key then some v else lookupHeader tl key

/-- A one-entry JSON object. -/
def obj1 (k : String) (v : Json) : Json := .obj (.cons k v .nil)

/-- A two-entry JSON object (insertion order kept). -/
def obj2 (k1 : String) (v1 : Json) (k2 : String) (v2 : Json) : Json :=
  .obj (.cons k1 v1 (.cons k2 v2 .nil))

/-- A three-entry JSON object (insertion order kept). -/
def obj3 (k1 : String) (v1 : Json) (k2 : String) (v2 : Json) (k3 : String) (v3 : Json) : Json :=
  .obj (.cons k1 v1 (.cons k2 v2 (.cons k3 v3 .nil)))

/-- `{ error: { message } }`. -/
def errMsg (m : String) : Json := obj1 "error" (obj1 "message" (.str m))

/-- `{ error: { message, details } }`. -/
def errMsgDetails (m d : String) : Json :=
  obj1 "error" (obj2 "message" (.str m) "details" (.str d))

/-- `{ error: { message, type } }`. -/
def errMsgType (m t : String) : Json :=
  obj1 "error" (obj2 "message" (.str m) "type" (.str t))

/-- `{ error: { message, status, detail } }`. -/
def errUpstream (m : String) (st : Nat) (detail : Json) : Json :=
  obj1 "error" (obj3 "message" (.str m) "status" (.num st) "detail" detail)

/-- The `server_error` message for the missing key on the completion path. -/
def serverMisconfigMsg : String :=
  "Server misconfiguration: OPENAI_API_KEY is not set in Worker environment. Add the secret in Cloudflare dashboard or via wrangler."

/-- JS property read on a parsed JSON value (objects only; duplicate keys
resolve to the last occurrence, as `JSON.parse` assignment order dictates). -/
def objGet : JsonObj → String → Option Json
  | .nil, _ => none
  | .cons k v tl, key =>
    match objGet tl key with
    | some r => some r
    | none => if k = key then some v else none

/-- `value.prop` on a parsed JSON value (`undefined` encoded as `none`). -/
def jsGet : Json → String → Option Json
  | .obj o, key => objGet o key
  | _, _ => none

/-- JS truthiness of a parsed JSON value. -/
def jsTruthy : Json → Bool
  | .null => false
  | .bool b => b
  | .num n => if n = 0 then false else true
  | .str s => if s = "" then false else true
  | .arr _ => true
  | .obj _ => true

/-- Whether `typeof value === 'object'` for a parsed JSON value. -/
def jsTypeofObject : Json → Bool
  | .null => true
  | .arr _ => true
  | .obj _ => true
  | _ => false

/-- `String.prototype.toLowerCase` (ASCII model). -/
def jsToLower (s : String) : String := String.mk (s.data.map Char.toLower)

/-- Prefix test on character lists. -/
def isPrefixL : List Char → List Char → Bool
  | [], _ => true
  | a :: as, hay =>
    match hay with
    | [] => false
    | b :: bs => if a = b then isPrefixL as bs else false

/-- Substring containment on character lists (JS `String.prototype.includes`). -/
def containsL (needle : List Char) : List Char → Bool
  | [] => isPrefixL needle []
  | c :: tl => isPrefixL needle (c :: tl) || containsL needle tl

/-- `hay.includes(needle)`. -/
def strIncludes (hay needle : String) : Bool := containsL needle.data hay.data

/-- Trim JSON whitespace from both ends of a character list. -/
def trimL (l : List Char) : List Char :=
  ((l.dropWhile fun c => isWsChar c).reverse.dropWhile fun c => isWsChar c).reverse

/-- `String.prototype.trim` (whitespace model). -/
def jsTrim (s : String) : String := String.mk (trimL s.data)

/-- `Response.ok`: status in the inclusive range 200–299. -/
def statusOk (st : Nat) : Bool := 200 ≤ st && st ≤ 299

/-- A `400` response carrying a serialized error envelope and the CORS headers. -/
def resp400 (envl : Json) : WResponse := ⟨400, corsHeaders, some (stringify envl)⟩

/-- The defensive body validation of the completion path, in source order:
`Content-Length: 0`, then a non-JSON `Content-Type`, then the JSON parse,
then the object check, then the `messages` array check. -/
def validateBody (req : WRequest) : Except WResponse Json :=
  let contentType := jsToLower (req.contentType.getD "")
  if req.contentLength = some "0" then
    .error (resp400 (errMsg "Empty request body"))
  else if contentType ≠ "" ∧ strIncludes contentType "application/json" = false then
    .error (resp400 (errMsg "Content-Type must be application/json"))
  else
    match jsParseE req.body with
    | .error m =>
      .error (resp400 (obj1 "error" (obj2 "message" (.str "Invalid JSON body") "details" (.str m))))
    | .ok userInput =>
      if jsTruthy userInput = false ∨ jsTypeofObject userInput = false then
        .error (resp400 (errMsg "Request body must be a JSON object with a messages array."))
      else
        match jsGet userInput "messages" with
        | some (.arr (.cons _ _)) => .ok userInput
        | _ =>
          .error (resp400 (errMsg "Request body must include a messages array with at least one item."))

/-- `normalizedMessages`: the `messages` value passed through verbatim when it
is an array, else `[]`. -/
def normalizedMessages (userInput : Json) : Json :=
  match jsGet userInput "messages" with
  | some (.arr a) => .arr a
  | _ => .arr .nil

/-- `model`: the trimmed `model` string when it is a string with non-empty
trim, else the fixed default `gpt-4o`. -/
def normalizeModel (userInput : Json) : String :=
  match jsGet userInput "model" with
  | some (.str s) => if 0 < (jsTrim s).length then jsTrim s else "gpt-4o"
  | _ => "gpt-4o"

/-- The `requestBody` object sent upstream: `{ model, messages }`. -/
def requestBodyJson (userInput : Json) : Json :=
  obj2 "model" (.str (normalizeModel userInput)) "messages" (normalizedMessages userInput)

/-- `JSON.stringify(requestBody)`: the exact body text of the upstream call. -/
def upstreamRequestBody (userInput : Json) : String := stringify (requestBodyJson userInput)

/-- `let data = null; try { data = JSON.parse(raw) } catch { data = null }`. -/
def parseOrNull (raw : String) : Json := (jsParse raw).getD .null

/-- Processing of the upstream completion response (or transport failure),
mirroring the `try` block around the completion `fetch`. -/
def completionRespond (u : Upstream) : WResponse :=
  match u with
  | .throws m => ⟨502, corsHeaders, some (stringify (errMsgDetails "Proxy error" m))⟩
  | .resp st stTxt upstreamCT raw =>
    let headers := mergeCT upstreamCT
    let data := parseOrNull raw
    if statusOk st = false then
      let detail : Json :=
        if data = .null then
          .str (if raw = "" then (if stTxt = "" then "Empty response body from OpenAI" else stTxt) else raw)
        else data
      ⟨st, headers, some (stringify (errUpstream "Upstream API error" st detail))⟩
    else if data = .null then ⟨st, headers, some raw⟩
    else ⟨st, headers, some (stringify data)⟩

/-- The `GET /__debug_models` branch. -/
def debugModelsRespond (env : WEnv) (u : Upstream) : WResponse :=
  if keyTruthy env.apiKey = false then
    ⟨500, corsHeaders, some (stringify (errMsg "OPENAI_API_KEY missing; cannot query models."))⟩
  else
    match u with
    | .throws m => ⟨502, corsHeaders, some (stringify (errMsgDetails "Failed to fetch models" m))⟩
    | .resp st _stTxt upstreamCT raw =>
      let headers := mergeCT upstreamCT
      let data := parseOrNull raw
      if statusOk st = false then
        let detail : Json := if data = .null then .str raw else data
        ⟨st, headers, some (stringify (errUpstream "Model list request failed" st detail))⟩
      else if data = .null then ⟨st, headers, some raw⟩
      else ⟨st, headers, some (stringify data)⟩

/-- The whole `fetch` handler.  `modelsUpstream` is what the models-list
`fetch` would do, `completionUpstream` what the completion `fetch` would do;
each is consulted only on its own branch. -/
def handleFetch (env : WEnv) (req : WRequest)
    (modelsUpstream completionUpstream : Upstream) : WResponse :=
  if req.method = "OPTIONS" then ⟨204, corsHeaders, none⟩
  else if req.path = some "/__debug_key" then
    ⟨200, corsHeaders, some (stringify (obj1 "hasKey" (.bool (keyTruthy env.apiKey))))⟩
  else if req.path = some "/__debug_models" then debugModelsRespond env modelsUpstream
  else if keyTruthy env.apiKey = false then
    ⟨500, corsHeaders, some (stringify (errMsgType serverMisconfigMsg "server_error"))⟩
  else
    match validateBody req with
    | .error r => r
    | .ok _ => completionRespond completionUpstream

/-! ## The chat widget (script.js) -/

/-- The initial greeting shown in the empty chat window. -/
def initialGreeting : String := "Hello! How can I help you today?"

/-- The fixed persona system prompt of the widget. -/
def systemPrompt : String :=
  "You are the L\x27Oreal Smart Product Advisor. Only answer questions about L\x27Oreal products, skincare routines, ingredients, or recommendations. Politely decline anything else."

/-- A chat message held in the widget history. -/
structure ChatMsg where
  role : String
  content : String
deriving DecidableEq

/-- `getSystemMessage()`. -/
def getSystemMessage : ChatMsg := ⟨"system", systemPrompt⟩

/-- A history message as the JSON object the widget persists. -/
def msgToJson (m : ChatMsg) : Json := obj2 "role" (.str m.role) "content" (.str m.content)

/-- A list of JSON values as a JSON array. -/
def listToArr : List Json → JsonArr
  | [] => .nil
  | v :: tl => .cons v (listToArr tl)

/-- `JSON.stringify(chatHistory)`: what `saveChatHistory` writes to storage. -/
def serializeHistory (h : List ChatMsg) : String :=
  stringify (.arr (listToArr (h.map msgToJson)))

/-- The rendered chat window: the greeting, or the visible message bubbles
(each with its sender class). -/
inductive ChatView where
  | greeting
  | messages (entries : List (String × String))
deriving DecidableEq

/-- `renderConversation()`: hide system messages; show the greeting when
nothing remains; otherwise one bubble per message, `user` class for user
roles and `bot` for everything else. -/
def renderConversation (history : List ChatMsg) : ChatView :=
  let visible := history.filter fun m => !(m.role == "system")
  if visible = [] then .greeting
  else .messages (visible.map fun m => ((if m.role = "user" then "user" else "bot"), m.content))

/-- The widget state touched by `resetConversation`: the in-memory history,
the persisted serialization, the rendered window and the input field. -/
structure WidgetState where
  history : List ChatMsg
  storage : Option String
  view : ChatView
  inputValue : String
deriving DecidableEq

/-- `resetConversation()`: history becomes `[getSystemMessage()]`, is saved,
the window is re-rendered, and the input field is cleared. -/
def resetConversation (_s : WidgetState) : WidgetState :=
  let h := [getSystemMessage]
  { history := h
    storage := some (serializeHistory h)
    view := renderConversation h
    inputValue := "" }

/-! ### Digit characters -/

theorem charDigit_digitChar {d : Nat} (h : d < 10) : charDigit (digitChar d) = d := by
  interval_cases d <;> decide

theorem isDigitChar_digitChar {d : Nat} (h : d < 10) : isDigitChar (digitChar d) = true := by
  interval_cases d <;> decide

theorem digit_not_ws {c : Char} (h : isDigitChar c = true) : isWsChar c = false := by
  simp only [isWsChar, Bool.or_eq_false_iff, decide_eq_false_iff_not]
  refine ⟨⟨⟨?_, ?_⟩, ?_⟩, ?_⟩ <;> (intro e; subst e; exact absurd h (by decide))

theorem digit_ne {c : Char} (h : isDigitChar c = true) {d : Char}
    (hd : isDigitChar d = false) : c ≠ d := by
  intro e; subst e; rw [h] at hd; exact absurd hd (by decide)

/-! ### Decimal digits of naturals -/

theorem natCharsF_eq (f : Nat) : ∀ n, n < f → natCharsF f n = natChars n := by
  induction f using Nat.strong_induction_on with
  | _ f ih =>
    intro n hn
    obtain ⟨f', rfl⟩ : ∃ f', f = f' + 1 := ⟨f - 1, by omega⟩
    by_cases h10 : n < 10
    · simp [natCharsF, natChars, h10]
    · have hdiv : n / 10 < n := Nat.div_lt_self (by omega) (by omega)
      have e1 : natCharsF (f' + 1) n = natCharsF f' (n / 10) ++ [digitChar (n % 10)] := by
        simp [natCharsF, h10]
      have e2 : natChars n = natCharsF n (n / 10) ++ [digitChar (n % 10)] := by
        simp [natChars, natCharsF, h10]
      rw [e1, e2, ih f' (by omega) (n / 10) (by omega), ih n hn (n / 10) hdiv]

theorem natChars_lt10 {n : Nat} (h : n < 10) : natChars n = [digitChar n] := by
  simp [natChars, natCharsF, h]

theorem natChars_ge10 {n : Nat} (h : 10 ≤ n) :
    natChars n = natChars (n / 10) ++ [digitChar (n % 10)] := by
  have e2 : natChars n = natCharsF n (n / 10) ++ [digitChar (n % 10)] := by
    simp [natChars, natCharsF, Nat.not_lt.2 h]
  rw [e2, natCharsF_eq n (n / 10) (Nat.div_lt_self (by omega) (by omega))]

theorem natChars_ne_nil (n : Nat) : natChars n ≠ [] := by
  by_cases h : n < 10
  · rw [natChars_lt10 h]; simp
  · rw [natChars_ge10 (by omega)]; simp

theorem natChars_digits (n : Nat) : ∀ c ∈ natChars n, isDigitChar c = true := by
  induction n using Nat.strong_induction_on with
  | _ n ih =>
    by_cases h : n < 10
    · rw [natChars_lt10 h]
      intro c hc
      simp only [List.mem_singleton] at hc
      subst hc
      exact isDigitChar_digitChar h
    · rw [natChars_ge10 (by omega)]
      intro c hc
      rcases List.mem_append.1 hc with h1 | h2
      · exact ih (n / 10) (Nat.div_lt_self (by omega) (by omega)) c h1
      · simp only [List.mem_singleton] at h2
        subst h2
        exact isDigitChar_digitChar (Nat.mod_lt _ (by omega))

theorem natChars_foldl (n : Nat) : ∀ a : Nat,
    (natChars n).foldl (fun a c => a * 10 + charDigit c) a
      = a * 10 ^ (natChars n).length + n := by
  induction n using Nat.strong_induction_on with
  | _ n ih =>
    intro a
    by_cases h : n < 10
    · rw [natChars_lt10 h]
      simp [charDigit_digitChar h]
    · rw [natChars_ge10 (by omega)]
      rw [List.foldl_append, List.length_append]
      rw [ih (n / 10) (Nat.div_lt_self (by omega) (by omega)) a]
      simp only [List.foldl_cons, List.foldl_nil, List.length_cons, List.length_nil]
      rw [charDigit_digitChar (Nat.mod_lt _ (by omega))]
      have : n / 10 * 10 + n % 10 = n := by omega
      rw [pow_succ]
      ring_nf
      omega

/-! ### Reading digits back -/

theorem readDigits_append (ds : List Char) (hds : ∀ c ∈ ds, isDigitChar c = true) :
    ∀ (rest : List Char) (a : Nat),
      readDigits (ds ++ rest) a
        = readDigits rest (ds.foldl (fun a c => a * 10 + charDigit c) a) := by
  induction ds with
  | nil => intro rest a; simp
  | cons c cs ihc =>
    intro rest a
    have hc : isDigitChar c = true := hds c (List.mem_cons_self _ _)
    simp only [List.cons_append, readDigits, hc, if_true, List.foldl_cons]
    exact ihc (fun d hd => hds d (List.mem_cons_of_mem _ hd)) rest _


theorem readDigits_stop {l : List Char} (h : headNotDigit l) (a : Nat) :
    readDigits l a = (a, l) := by
  cases l with
  | nil => rfl
  | cons c cs => simp [readDigits, headNotDigit] at h ⊢; simp [h]

theorem parseNatNum_natChars (n : Nat) {rest : List Char} (h : headNotDigit rest) :
    parseNatNum (natChars n ++ rest) = some (n, rest) := by
  obtain ⟨d, ds, hds⟩ : ∃ d ds, natChars n = d :: ds := by
    cases he : natChars n with
    | nil => exact absurd he (natChars_ne_nil n)
    | cons d ds => exact ⟨d, ds, rfl⟩
  have hall := natChars_digits n
  rw [hds] at hall
  have hd : isDigitChar d = true := hall d (List.mem_cons_self _ _)
  rw [hds]
  simp only [List.cons_append, parseNatNum, hd, if_true]
  rw [readDigits_append ds (fun c hc => hall c (List.mem_cons_of_mem _ hc)) rest]
  rw [readDigits_stop h]
  have : (ds.foldl (fun a c => a * 10 + charDigit c) (charDigit d)) = n := by
    have := natChars_foldl n 0
    rw [hds] at this
    simpa using this
  rw [this]

/-! ### String literal roundtrip -/

theorem parseStrBody_nil : parseStrBody [] = none := by
  rw [parseStrBody.eq_def]

theorem parseStrBody_cons (c : Char) (cs : List Char) :
    parseStrBody (c :: cs) =
      (if c = '"' then some ([], cs)
       else if c = '\\' then
         match cs with
         | [] => none
         | e :: cs2 =>
           (unescapeChar e).bind fun u =>
             (parseStrBody cs2).map fun p => (u :: p.1, p.2)
       else (parseStrBody cs).map fun p => (c :: p.1, p.2)) := by
  rw [parseStrBody.eq_def]

theorem parseStrBody_escape (cs : List Char) :
    ∀ rest : List Char, parseStrBody (escapeString cs ++ ('"' :: rest)) = some (cs, rest) := by
  induction cs with
  | nil => intro rest; simp [escapeString, parseStrBody_cons]
  | cons c cs ihc =>
    intro rest
    by_cases h1 : c = '"'
    · subst h1
      simp [escapeString, escapeChar, parseStrBody_cons, unescapeChar, ihc rest]
    · by_cases h2 : c = '\\'
      · subst h2
        simp [escapeString, escapeChar, parseStrBody_cons, unescapeChar, ihc rest]
      · by_cases h3 : c = '\n'
        · subst h3
          simp [escapeString, escapeChar, parseStrBody_cons, unescapeChar, ihc rest]
        · by_cases h4 : c = '\t'
          · subst h4
            simp [escapeString, escapeChar, parseStrBody_cons, unescapeChar, ihc rest]
          · by_cases h5 : c = '\r'
            · subst h5
              simp [escapeString, escapeChar, parseStrBody_cons, unescapeChar, ihc rest]
            · rw [escapeString, escapeChar,
                if_neg h1, if_neg h2, if_neg h3, if_neg h4, if_neg h5]
              simp only [List.singleton_append, List.cons_append, List.nil_append,
                parseStrBody_cons, if_neg h1, if_neg h2]
              rw [ihc rest]
              rfl

/-! ### Leading characters of serialized values -/

theorem skipWs_not_ws {c : Char} (h : isWsChar c = false) (l : List Char) :
    skipWs (c :: l) = c :: l := by
  simp [skipWs, h]

theorem serJson_head (v : Json) :
    ∃ c t, serJson v = c :: t ∧ isWsChar c = false ∧ c ≠ ']' := by
  cases v with
  | null => exact ⟨'n', _, rfl, by decide, by decide⟩
  | bool b =>
    cases b
    · exact ⟨'f', _, rfl, by decide, by decide⟩
    · exact ⟨'t', _, rfl, by decide, by decide⟩
  | str s => refine ⟨'"', _, rfl, ?_, ?_⟩ <;> decide
  | arr a => refine ⟨'[', _, rfl, ?_, ?_⟩ <;> decide
  | obj o => exact ⟨'{', _, rfl, by decide, by decide⟩
  | num i =>
    rw [serJson]
    by_cases hneg : i < 0
    · exact ⟨'-', _, by rw [intChars, if_pos hneg], by decide, by decide⟩
    · obtain ⟨d, ds, hds⟩ : ∃ d ds, natChars i.toNat = d :: ds := by
        cases he : natChars i.toNat with
        | nil => exact absurd he (natChars_ne_nil _)
        | cons d ds => exact ⟨d, ds, rfl⟩
      have hd : isDigitChar d = true := by
        have := natChars_digits i.toNat
        rw [hds] at this
        exact this d (List.mem_cons_self _ _)
      refine ⟨d, ds, by rw [intChars, if_neg hneg, hds], digit_not_ws hd, ?_⟩
      exact digit_ne hd (by decide)


theorem sizeJ_pos (v : Json) : 1 ≤ sizeJ v := by
  cases v <;> simp [sizeJ]

theorem sizeA_pos (a : JsonArr) : 1 ≤ sizeA a := by
  cases a <;> simp [sizeA]

theorem sizeO_pos (o : JsonObj) : 1 ≤ sizeO o := by
  cases o <;> simp [sizeO]

theorem mk_data (s : String) : String.mk s.data = s := rfl

theorem headNotDigit_arrSep (tl : JsonArr) (rest : List Char) :
    headNotDigit (serArrSep tl ++ (']' :: rest)) := by
  cases tl <;> simp [serArrSep, headNotDigit] <;> decide

theorem headNotDigit_objSep (tl : JsonObj) (rest : List Char) :
    headNotDigit (serObjSep tl ++ ('}' :: rest)) := by
  cases tl <;> simp [serObjSep, headNotDigit] <;> decide

theorem parseVal_succ (f : Nat) (l : List Char) :
    parseVal (f + 1) l =
      (match skipWs l with
       | [] => none
       | c :: r =>
         if c = '"' then (parseStrBody r).map fun p => (Json.str (String.mk p.1), p.2)
         else if c = '[' then (parseArrF f r).map fun p => (Json.arr p.1, p.2)
         else if c = '{' then (parseObjF f r).map fun p => (Json.obj p.1, p.2)
         else if c = '-' then (parseNatNum r).map fun p => (Json.num (-(p.1 : Int)), p.2)
         else if isDigitChar c then (parseNatNum (c :: r)).map fun p => (Json.num (p.1 : Int), p.2)
         else if c = 'n' then (dropLit ['u', 'l', 'l'] r).map fun r2 => (Json.null, r2)
         else if c = 't' then (dropLit ['r', 'u', 'e'] r).map fun r2 => (Json.bool true, r2)
         else if c = 'f' then (dropLit ['a', 'l', 's', 'e'] r).map fun r2 => (Json.bool false, r2)
         else none) := by
  rw [parseVal.eq_def]

theorem parseVal_head (f : Nat) (c : Char) (r : List Char) (hws : isWsChar c = false) :
    parseVal (f + 1) (c :: r) =
      (if c = '"' then (parseStrBody r).map fun p => (Json.str (String.mk p.1), p.2)
       else if c = '[' then (parseArrF f r).map fun p => (Json.arr p.1, p.2)
       else if c = '{' then (parseObjF f r).map fun p => (Json.obj p.1, p.2)
       else if c = '-' then (parseNatNum r).map fun p => (Json.num (-(p.1 : Int)), p.2)
       else if isDigitChar c then (parseNatNum (c :: r)).map fun p => (Json.num (p.1 : Int), p.2)
       else if c = 'n' then (dropLit ['u', 'l', 'l'] r).map fun r2 => (Json.null, r2)
       else if c = 't' then (dropLit ['r', 'u', 'e'] r).map fun r2 => (Json.bool true, r2)
       else if c = 'f' then (dropLit ['a', 'l', 's', 'e'] r).map fun r2 => (Json.bool false, r2)
       else none) := by
  rw [parseVal_succ, skipWs_not_ws hws]

theorem parseArrF_succ (f : Nat) (l : List Char) :
    parseArrF (f + 1) l =
      (match skipWs l with
       | [] => none
       | c :: r =>
         if c = ']' then some (.nil, r)
         else
           (parseVal f (c :: r)).bind fun p =>
             (parseArrTail f p.2).map fun q => (.cons p.1 q.1, q.2)) := by
  rw [parseArrF.eq_def]

theorem parseArrF_head (f : Nat) (c : Char) (r : List Char) (hws : isWsChar c = false) :
    parseArrF (f + 1) (c :: r) =
      (if c = ']' then some (.nil, r)
       else
         (parseVal f (c :: r)).bind fun p =>
           (parseArrTail f p.2).map fun q => (.cons p.1 q.1, q.2)) := by
  rw [parseArrF_succ, skipWs_not_ws hws]

theorem parseArrTail_succ (f : Nat) (l : List Char) :
    parseArrTail (f + 1) l =
      (match skipWs l with
       | [] => none
       | c :: r =>
         if c = ']' then some (.nil, r)
         else if c = ',' then
           (parseVal f r).bind fun p =>
             (parseArrTail f p.2).map fun q => (.cons p.1 q.1, q.2)
         else none) := by
  rw [parseArrTail.eq_def]

theorem parseArrTail_head (f : Nat) (c : Char) (r : List Char) (hws : isWsChar c = false) :
    parseArrTail (f + 1) (c :: r) =
      (if c = ']' then some (.nil, r)
       else if c = ',' then
         (parseVal f r).bind fun p =>
           (parseArrTail f p.2).map fun q => (.cons p.1 q.1, q.2)
       else none) := by
  rw [parseArrTail_succ, skipWs_not_ws hws]

theorem parseObjF_succ (f : Nat) (l : List Char) :
    parseObjF (f + 1) l =
      (match skipWs l with
       | [] => none
       | c :: r =>
         if c = '}' then some (.nil, r)
         else if c = '"' then
           (parseStrBody r).bind fun p =>
             match skipWs p.2 with
             | [] => none
             | c2 :: r2 =>
               if c2 = ':' then
                 (parseVal f r2).bind fun q =>
                   (parseObjTail f q.2).map fun t => (.cons (String.mk p.1) q.1 t.1, t.2)
               else none
         else none) := by
  rw [parseObjF.eq_def]

theorem parseObjF_head (f : Nat) (c : Char) (r : List Char) (hws : isWsChar c = false) :
    parseObjF (f + 1) (c :: r) =
      (if c = '}' then some (.nil, r)
       else if c = '"' then
         (parseStrBody r).bind fun p =>
           match skipWs p.2 with
           | [] => none
           | c2 :: r2 =>
             if c2 = ':' then
               (parseVal f r2).bind fun q =>
                 (parseObjTail f q.2).map fun t => (.cons (String.mk p.1) q.1 t.1, t.2)
             else none
       else none) := by
  rw [parseObjF_succ, skipWs_not_ws hws]

theorem parseObjTail_succ (f : Nat) (l : List Char) :
    parseObjTail (f + 1) l =
      (match skipWs l with
       | [] => none
       | c :: r =>
         if c = '}' then some (.nil, r)
         else if c = ',' then
           match skipWs r with
           | [] => none
           | c1 :: r1 =>
             if c1 = '"' then
               (parseStrBody r1).bind fun p =>
                 match skipWs p.2 with
                 | [] => none
                 | c2 :: r2 =>
                   if c2 = ':' then
                     (parseVal f r2).bind fun q =>
                       (parseObjTail f q.2).map fun t => (.cons (String.mk p.1) q.1 t.1, t.2)
                   else none
             else none
         else none) := by
  rw [parseObjTail.eq_def]

theorem parseObjTail_head (f : Nat) (c : Char) (r : List Char) (hws : isWsChar c = false) :
    parseObjTail (f + 1) (c :: r) =
      (if c = '}' then some (.nil, r)
       else if c = ',' then
         match skipWs r with
         | [] => none
         | c1 :: r1 =>
           if c1 = '"' then
             (parseStrBody r1).bind fun p =>
               match skipWs p.2 with
               | [] => none
               | c2 :: r2 =>
                 if c2 = ':' then
                   (parseVal f r2).bind fun q =>
                     (parseObjTail f q.2).map fun t => (.cons (String.mk p.1) q.1 t.1, t.2)
                 else none
           else none
       else none) := by
  rw [parseObjTail_succ, skipWs_not_ws hws]

theorem parseVal_null (f : Nat) (r : List Char) :
    parseVal (f + 1) ('n' :: 'u' :: 'l' :: 'l' :: r) = some (Json.null, r) := by
  rw [parseVal_head f 'n' _ (by decide)]
  simp [dropLit]
  decide

theorem parseVal_true (f : Nat) (r : List Char) :
    parseVal (f + 1) ('t' :: 'r' :: 'u' :: 'e' :: r) = some (Json.bool true, r) := by
  rw [parseVal_head f 't' _ (by decide)]
  simp [dropLit]
  decide

theorem parseVal_false (f : Nat) (r : List Char) :
    parseVal (f + 1) ('f' :: 'a' :: ('l' :: 's' :: ('e' :: r))) = some (Json.bool false, r) := by
  rw [parseVal_head f 'f' _ (by decide)]
  simp [dropLit]
  decide

theorem parseVal_quote (f : Nat) (r : List Char) :
    parseVal (f + 1) ('"' :: r)
      = (parseStrBody r).map fun p => (Json.str (String.mk p.1), p.2) := by
  rw [parseVal_head f '"' _ (by decide)]
  simp

theorem parseVal_lbrack (f : Nat) (r : List Char) :
    parseVal (f + 1) ('[' :: r) = (parseArrF f r).map fun p => (Json.arr p.1, p.2) := by
  rw [parseVal_head f '[' _ (by decide)]
  simp

theorem parseVal_lbrace (f : Nat) (r : List Char) :
    parseVal (f + 1) ('{' :: r) = (parseObjF f r).map fun p => (Json.obj p.1, p.2) := by
  rw [parseVal_head f '{' _ (by decide)]
  simp

theorem parseVal_dash (f : Nat) (r : List Char) :
    parseVal (f + 1) ('-' :: r)
      = (parseNatNum r).map fun p => (Json.num (-(p.1 : Int)), p.2) := by
  rw [parseVal_head f '-' _ (by decide)]
  simp

theorem parseVal_digit (f : Nat) {c : Char} (r : List Char) (h : isDigitChar c = true) :
    parseVal (f + 1) (c :: r)
      = (parseNatNum (c :: r)).map fun p => (Json.num (p.1 : Int), p.2) := by
  rw [parseVal_head f c _ (digit_not_ws h)]
  rw [if_neg (digit_ne h (by decide)), if_neg (digit_ne h (by decide)),
      if_neg (digit_ne h (by decide)), if_neg (digit_ne h (by decide)), if_pos h]

theorem roundtrip (f : Nat) :
    (∀ (v : Json) (rest : List Char), headNotDigit rest → sizeJ v ≤ f →
        parseVal f (serJson v ++ rest) = some (v, rest))
  ∧ (∀ (a : JsonArr) (rest : List Char), sizeA a ≤ f →
        parseArrF f (serArrItems a ++ (']' :: rest)) = some (a, rest))
  ∧ (∀ (a : JsonArr) (rest : List Char), sizeA a ≤ f →
        parseArrTail f (serArrSep a ++ (']' :: rest)) = some (a, rest))
  ∧ (∀ (o : JsonObj) (rest : List Char), sizeO o ≤ f →
        parseObjF f (serObjItems o ++ ('}' :: rest)) = some (o, rest))
  ∧ (∀ (o : JsonObj) (rest : List Char), sizeO o ≤ f →
        parseObjTail f (serObjSep o ++ ('}' :: rest)) = some (o, rest)) := by
  induction f with
  | zero =>
    refine ⟨?_, ?_, ?_, ?_, ?_⟩
    · intro v rest _ h; exact absurd h (by have := sizeJ_pos v; omega)
    · intro a rest h; exact absurd h (by have := sizeA_pos a; omega)
    · intro a rest h; exact absurd h (by have := sizeA_pos a; omega)
    · intro o rest h; exact absurd h (by have := sizeO_pos o; omega)
    · intro o rest h; exact absurd h (by have := sizeO_pos o; omega)
  | succ f ih =>
    obtain ⟨ih1, ih2, ih3, ih4, ih5⟩ := ih
    refine ⟨?_, ?_, ?_, ?_, ?_⟩
    · intro v rest hrest h
      cases v with
      | null =>
        rw [show serJson .null ++ rest = 'n' :: 'u' :: 'l' :: 'l' :: rest from rfl]
        exact parseVal_null f rest
      | bool b =>
        cases b
        · rw [show serJson (.bool false) ++ rest
                = 'f' :: 'a' :: 'l' :: 's' :: 'e' :: rest from rfl]
          exact parseVal_false f rest
        · rw [show serJson (.bool true) ++ rest
                = 't' :: 'r' :: 'u' :: 'e' :: rest from rfl]
          exact parseVal_true f rest
      | str s =>
        rw [show serJson (.str s) ++ rest
              = '"' :: (escapeString s.data ++ ('"' :: rest)) from by
            simp [serJson, serStr]]
        rw [parseVal_quote, parseStrBody_escape s.data rest]
        simp [mk_data]
      | num i =>
        by_cases hneg : i < 0
        · rw [show serJson (.num i) ++ rest = '-' :: (natChars i.natAbs ++ rest) from by
            rw [serJson, intChars, if_pos hneg]; simp]
          rw [parseVal_dash, parseNatNum_natChars _ hrest]
          simp only [Option.map_some']
          rw [show -((i.natAbs : Int)) = i from by omega]
        · obtain ⟨d, ds, hds⟩ : ∃ d ds, natChars i.toNat = d :: ds := by
            cases he : natChars i.toNat with
            | nil => exact absurd he (natChars_ne_nil _)
            | cons d ds => exact ⟨d, ds, rfl⟩
          have hall := natChars_digits i.toNat
          rw [hds] at hall
          have hd : isDigitChar d = true := hall d (List.mem_cons_self _ _)
          rw [show serJson (.num i) ++ rest = d :: (ds ++ rest) from by
            rw [serJson, intChars, if_neg hneg, hds]; simp]
          rw [parseVal_digit f _ hd]
          rw [show d :: (ds ++ rest) = (d :: ds) ++ rest from rfl, ← hds]
          rw [parseNatNum_natChars _ hrest]
          simp only [Option.map_some']
          rw [show ((i.toNat : Int)) = i from by omega]
      | arr a =>
        rw [show serJson (.arr a) ++ rest = '[' :: (serArrItems a ++ (']' :: rest)) from by
          rw [serJson]; simp]
        rw [parseVal_lbrack, ih2 a rest (by simp [sizeJ] at h; omega)]
        rfl
      | obj o =>
        rw [show serJson (.obj o) ++ rest = '{' :: (serObjItems o ++ ('}' :: rest)) from by
          rw [serJson]; simp]
        rw [parseVal_lbrace, ih4 o rest (by simp [sizeJ] at h; omega)]
        rfl
    · intro a rest h
      cases a with
      | nil =>
        rw [show serArrItems .nil ++ (']' :: rest) = ']' :: rest from rfl]
        rw [parseArrF_head f ']' rest (by decide), if_pos rfl]
      | cons v tl =>
        have hv : sizeJ v ≤ f := by simp [sizeA] at h; omega
        have htl : sizeA tl ≤ f := by simp [sizeA] at h; omega
        obtain ⟨c, t, hct, hws, hne⟩ := serJson_head v
        rw [show serArrItems (.cons v tl) ++ (']' :: rest)
              = serJson v ++ (serArrSep tl ++ (']' :: rest)) from by
            rw [serArrItems]; simp]
        rw [hct]
        simp only [List.cons_append]
        rw [parseArrF_head f c _ hws, if_neg hne]
        rw [show c :: (t ++ (serArrSep tl ++ (']' :: rest)))
              = (c :: t) ++ (serArrSep tl ++ (']' :: rest)) from rfl, ← hct]
        rw [ih1 v _ (headNotDigit_arrSep tl rest) hv]
        simp only [Option.some_bind']
        rw [ih3 tl rest htl]
        rfl
    · intro a rest h
      cases a with
      | nil =>
        rw [show serArrSep .nil ++ (']' :: rest) = ']' :: rest from rfl]
        rw [parseArrTail_head f ']' rest (by decide), if_pos rfl]
      | cons v tl =>
        have hv : sizeJ v ≤ f := by simp [sizeA] at h; omega
        have htl : sizeA tl ≤ f := by simp [sizeA] at h; omega
        rw [show serArrSep (.cons v tl) ++ (']' :: rest)
              = ',' :: (serJson v ++ (serArrSep tl ++ (']' :: rest))) from by
            rw [serArrSep]; simp]
        rw [parseArrTail_head f ',' _ (by decide)]
        rw [if_neg (show ¬((',' : Char) = ']') by decide), if_pos rfl]
        rw [ih1 v _ (headNotDigit_arrSep tl rest) hv]
        simp only [Option.some_bind']
        rw [ih3 tl rest htl]
        rfl
    · intro o rest h
      cases o with
      | nil =>
        rw [show serObjItems .nil ++ ('}' :: rest) = '}' :: rest from rfl]
        rw [parseObjF_head f '}' rest (by decide), if_pos rfl]
      | cons k v tl =>
        have hv : sizeJ v ≤ f := by simp [sizeO] at h; omega
        have htl : sizeO tl ≤ f := by simp [sizeO] at h; omega
        rw [show serObjItems (.cons k v tl) ++ ('}' :: rest)
              = '"' :: (escapeString k.data
                  ++ ('"' :: (':' :: (serJson v ++ (serObjSep tl ++ ('}' :: rest)))))) from by
            rw [serObjItems, serStr]; simp]
        rw [parseObjF_head f '"' _ (by decide)]
        rw [if_neg (show ¬(('"' : Char) = '}') by decide), if_pos rfl]
        rw [parseStrBody_escape k.data]
        simp only [Option.some_bind']
        rw [skipWs_not_ws (show isWsChar ':' = false from by decide)]
        simp only [if_pos rfl]
        rw [ih1 v _ (headNotDigit_objSep tl rest) hv]
        simp only [Option.some_bind']
        rw [ih5 tl rest htl]
        simp [mk_data]
    · intro o rest h
      cases o with
      | nil =>
        rw [show serObjSep .nil ++ ('}' :: rest) = '}' :: rest from rfl]
        rw [parseObjTail_head f '}' rest (by decide), if_pos rfl]
      | cons k v tl =>
        have hv : sizeJ v ≤ f := by simp [sizeO] at h; omega
        have htl : sizeO tl ≤ f := by simp [sizeO] at h; omega
        rw [show serObjSep (.cons k v tl) ++ ('}' :: rest)
              = ',' :: ('"' :: (escapeString k.data
                  ++ ('"' :: (':' :: (serJson v ++ (serObjSep tl ++ ('}' :: rest))))))) from by
            rw [serObjSep, serStr]; simp]
        rw [parseObjTail_head f ',' _ (by decide)]
        rw [if_neg (show ¬((',' : Char) = '}') by decide), if_pos rfl]
        rw [skipWs_not_ws (show isWsChar '"' = false from by decide)]
        simp only [if_pos rfl]
        rw [parseStrBody_escape k.data]
        simp only [Option.some_bind']
        rw [skipWs_not_ws (show isWsChar ':' = false from by decide)]
        simp only [if_pos rfl]
        rw [ih1 v _ (headNotDigit_objSep tl rest) hv]
        simp only [Option.some_bind']
        rw [ih5 tl rest htl]
        simp [mk_data]

/-! ### Serialized length dominates the fuel need -/

theorem size_le_len (n : Nat) :
    (∀ v : Json, sizeJ v ≤ n → sizeJ v ≤ 2 * (serJson v).length)
  ∧ (∀ a : JsonArr, sizeA a ≤ n →
      sizeA a ≤ 2 * (serArrItems a).length + 3 ∧ sizeA a ≤ 2 * (serArrSep a).length + 2)
  ∧ (∀ o : JsonObj, sizeO o ≤ n →
      sizeO o ≤ 2 * (serObjItems o).length + 3 ∧ sizeO o ≤ 2 * (serObjSep o).length + 2) := by
  induction n with
  | zero =>
    refine ⟨?_, ?_, ?_⟩
    · intro v h; exact absurd h (by have := sizeJ_pos v; omega)
    · intro a h; exact absurd h (by have := sizeA_pos a; omega)
    · intro o h; exact absurd h (by have := sizeO_pos o; omega)
  | succ n ih =>
    obtain ⟨ihJ, ihA, ihO⟩ := ih
    refine ⟨?_, ?_, ?_⟩
    · intro v h
      cases v with
      | null => simp [sizeJ, serJson]
      | bool b => cases b <;> simp [sizeJ, serJson]
      | num i =>
        have : (serJson (.num i)).length ≥ 1 := by
          rw [serJson, intChars]
          by_cases hneg : i < 0
          · rw [if_pos hneg]; simp
          · rw [if_neg hneg]
            have := natChars_ne_nil i.toNat
            cases he : natChars i.toNat with
            | nil => exact absurd he this
            | cons d ds => simp [he]
        simp [sizeJ]
        omega
      | str s => simp [sizeJ, serJson, serStr]; omega
      | arr a =>
        have ha : sizeA a ≤ n := by simp [sizeJ] at h; omega
        have := (ihA a ha).1
        simp [sizeJ, serJson] at *
        omega
      | obj o =>
        have ho : sizeO o ≤ n := by simp [sizeJ] at h; omega
        have := (ihO o ho).1
        simp [sizeJ, serJson] at *
        omega
    · intro a h
      cases a with
      | nil => simp [sizeA, serArrItems, serArrSep]
      | cons v tl =>
        have hv : sizeJ v ≤ n := by simp [sizeA] at h; omega
        have htl : sizeA tl ≤ n := by simp [sizeA] at h; omega
        have h1 := ihJ v hv
        have h2 := (ihA tl htl).2
        simp only [sizeA, serArrItems, serArrSep, List.length_append, List.length_cons] at *
        omega
    · intro o h
      cases o with
      | nil => simp [sizeO, serObjItems, serObjSep]
      | cons k v tl =>
        have hv : sizeJ v ≤ n := by simp [sizeO] at h; omega
        have htl : sizeO tl ≤ n := by simp [sizeO] at h; omega
        have h1 := ihJ v hv
        have h2 := (ihO tl htl).2
        simp only [sizeO, serObjItems, serObjSep, List.length_append, List.length_cons] at *
        omega

theorem sizeJ_le_twice_len (v : Json) : sizeJ v ≤ 2 * (serJson v).length :=
  (size_le_len (sizeJ v)).1 v le_rfl

/-- `JSON.parse` inverts `JSON.stringify` on every JSON value. -/
theorem jsParseE_stringify (v : Json) : jsParseE (stringify v) = .ok v := by
  have hlen : (stringify v).length = (serJson v).length := rfl
  have hdata : (stringify v).data = serJson v := rfl
  have hfuel : sizeJ v ≤ 2 * (stringify v).length + 4 := by
    have := sizeJ_le_twice_len v
    rw [hlen]
    omega
  have hrt := (roundtrip (2 * (stringify v).length + 4)).1 v []
    (by simp [headNotDigit]) hfuel
  rw [List.append_nil] at hrt
  rw [jsParseE, hdata, hrt]
  rfl

/-- `JSON.parse` inverts `JSON.stringify` (`Option` form). -/
theorem jsParse_stringify (v : Json) : jsParse (stringify v) = some v := by
  rw [jsParse, jsParseE_stringify]
  rfl

/-! ## Handler unfolding lemmas -/

theorem handleFetch_completion (env : WEnv) (req : WRequest) (mU cU : Upstream)
    (h1 : req.method ≠ "OPTIONS") (h2 : req.path ≠ some "/__debug_key")
    (h3 : req.path ≠ some "/__debug_models") (h4 : keyTruthy env.apiKey = true) :
    handleFetch env req mU cU =
      (match validateBody req with
       | .error r => r
       | .ok _ => completionRespond cU) := by
  rw [handleFetch, if_neg h1, if_neg h2, if_neg h3, if_neg (by simp [h4])]

theorem completionRespond_throws (m : String) :
    completionRespond (.throws m)
      = ⟨502, corsHeaders, some (stringify (errMsgDetails "Proxy error" m))⟩ := rfl

theorem completionRespond_resp (st : Nat) (stTxt : String) (ct : Option String) (raw : String) :
    completionRespond (.resp st stTxt ct raw) =
      (if statusOk st = false then
        ⟨st, mergeCT ct, some (stringify (errUpstream "Upstream API error" st
          (if parseOrNull raw = .null then
            .str (if raw = "" then (if stTxt = "" then "Empty response body from OpenAI" else stTxt) else raw)
           else parseOrNull raw)))⟩
       else if parseOrNull raw = .null then ⟨st, mergeCT ct, some raw⟩
       else ⟨st, mergeCT ct, some (stringify (parseOrNull raw))⟩) := rfl

/-! ## C6: transport failure on the completion call -/

/-- C6: for every valid completion-proxy request, a transport-level failure of
the upstream call (the fetch or body read throws with message `m`) makes the
relay respond `502` with body `{error: {message: "Proxy error", details: m}}`. -/
theorem transport_error_502 (env : WEnv) (req : WRequest) (mU : Upstream) (v : Json)
    (m : String)
    (h1 : req.method ≠ "OPTIONS") (h2 : req.path ≠ some "/__debug_key")
    (h3 : req.path ≠ some "/__debug_models") (h4 : keyTruthy env.apiKey = true)
    (hval : validateBody req = .ok v) :
    handleFetch env req mU (.throws m)
      = ⟨502, corsHeaders, some (stringify (errMsgDetails "Proxy error" m))⟩ := by
  rw [handleFetch_completion env req mU (.throws m) h1 h2 h3 h4, hval]
  rfl

/-- C6 witness: a concrete valid request whose upstream fetch throws. -/
theorem transport_error_502_witness :
    handleFetch ⟨some "k"⟩ ⟨"POST", some "/", some "application/json", none,
        "\x7b\"messages\":[0]\x7d"⟩ (.throws "x") (.throws "connection refused")
      = ⟨502, corsHeaders, some (stringify (errMsgDetails "Proxy error" "connection refused"))⟩ :=
  transport_error_502 ⟨some "k"⟩ ⟨"POST", some "/", some "application/json", none,
      "\x7b\"messages\":[0]\x7d"⟩ (.throws "x")
    (obj1 "messages" (.arr (.cons (.num 0) .nil))) "connection refused"
    (by decide) (by decide) (by decide) (by decide) (by rfl)

/-! ## C7: every response carries the CORS headers -/

theorem completionRespond_headers (u : Upstream) :
    ∃ ct : Option String, (completionRespond u).headers = mergeCT ct := by
  cases u with
  | throws m => exact ⟨none, rfl⟩
  | resp st stTxt ct raw =>
    refine ⟨ct, ?_⟩
    rw [completionRespond_resp]
    split_ifs <;> rfl

theorem debugModelsRespond_headers (env : WEnv) (u : Upstream) :
    ∃ ct : Option String, (debugModelsRespond env u).headers = mergeCT ct := by
  rw [debugModelsRespond.eq_def]
  split_ifs with hk
  · exact ⟨none, rfl⟩
  · cases u with
    | throws m => exact ⟨none, rfl⟩
    | resp st stTxt ct raw =>
      refine ⟨ct, ?_⟩
      simp only
      split_ifs <;> rfl

theorem validateBody_headers (req : WRequest) (r : WResponse)
    (h : validateBody req = .error r) : r.headers = corsHeaders := by
  rw [validateBody] at h
  split_ifs at h
  · cases h; rfl
  · cases h; rfl
  · revert h
    cases jsParseE req.body with
    | error m => intro h; cases h; rfl
    | ok v =>
      simp only
      split_ifs
      · intro h; cases h; rfl
      · cases hm : jsGet v "messages" with
        | none => intro h; cases h; rfl
        | some mv =>
          cases mv with
          | arr a =>
            cases a with
            | nil => intro h; cases h; rfl
            | cons x tl => intro h; cases h
          | null => intro h; cases h; rfl
          | bool b => intro h; cases h; rfl
          | num n => intro h; cases h; rfl
          | str s => intro h; cases h; rfl
          | obj o => intro h; cases h; rfl

theorem handleFetch_headers (env : WEnv) (req : WRequest) (mU cU : Upstream) :
    ∃ ct : Option String, (handleFetch env req mU cU).headers = mergeCT ct := by
  rw [handleFetch]
  split_ifs
  · exact ⟨none, rfl⟩
  · exact ⟨none, rfl⟩
  · exact debugModelsRespond_headers env mU
  · exact ⟨none, rfl⟩
  · cases hv : validateBody req with
    | error r =>
      refine ⟨none, ?_⟩
      simp only [hv]
      exact validateBody_headers req r hv
    | ok v =>
      simp only [hv]
      exact completionRespond_headers cU

theorem mergeCT_lookups (ct : Option String) :
    lookupHeader (mergeCT ct) "Access-Control-Allow-Origin" = some "*"
  ∧ lookupHeader (mergeCT ct) "Access-Control-Allow-Methods" = some "GET, POST, OPTIONS"
  ∧ lookupHeader (mergeCT ct) "Access-Control-Allow-Headers" = some "Content-Type, Authorization" := by
  cases ct <;> exact ⟨rfl, rfl, rfl⟩

/-- C7: every response the relay emits carries the preflight CORS headers,
the header list being `corsHeaders` itself or `corsHeaders` with only the
`Content-Type` entry overridden. -/
theorem cors_on_every_response (env : WEnv) (req : WRequest) (mU cU : Upstream) :
    ((handleFetch env req mU cU).headers = corsHeaders
      ∨ ∃ ct : String, (handleFetch env req mU cU).headers = mergeCT (some ct))
  ∧ lookupHeader (handleFetch env req mU cU).headers "Access-Control-Allow-Origin" = some "*"
  ∧ lookupHeader (handleFetch env req mU cU).headers "Access-Control-Allow-Methods"
      = some "GET, POST, OPTIONS"
  ∧ lookupHeader (handleFetch env req mU cU).headers "Access-Control-Allow-Headers"
      = some "Content-Type, Authorization" := by
  obtain ⟨ct, hct⟩ := handleFetch_headers env req mU cU
  rw [hct]
  refine ⟨?_, mergeCT_lookups ct⟩
  cases ct with
  | none => exact Or.inl rfl
  | some c => exact Or.inr ⟨c, rfl⟩

/-! ## C8: the key-presence diagnostic -/

/-- C8: `GET /__debug_key` answers `200` with `{hasKey: b}`, `b` true exactly
when the credential is configured (truthy), and the response is a function of
that bit alone — two environments with equal `keyTruthy` get identical
responses, so the credential value itself never influences the reply. -/
theorem debug_key_response (env : WEnv) (req : WRequest) (mU cU : Upstream)
    (hm : req.method = "GET") (hp : req.path = some "/__debug_key") :
    handleFetch env req mU cU
      = ⟨200, corsHeaders, some (stringify (obj1 "hasKey" (.bool (keyTruthy env.apiKey))))⟩
  ∧ ∀ env' : WEnv, keyTruthy env'.apiKey = keyTruthy env.apiKey →
      handleFetch env' req mU cU = handleFetch env req mU cU := by
  have hno : req.method ≠ "OPTIONS" := by rw [hm]; decide
  constructor
  · rw [handleFetch, if_neg hno, if_pos hp]
  · intro env' he
    rw [handleFetch, if_neg hno, if_pos hp, handleFetch, if_neg hno, if_pos hp, he]

/-- C8 witness: two distinct configured keys produce the same response. -/
theorem debug_key_response_witness :
    handleFetch ⟨some "secret-a"⟩ ⟨"GET", some "/__debug_key", none, none, ""⟩
        (.throws "x") (.throws "x")
      = ⟨200, corsHeaders, some (stringify (obj1 "hasKey" (.bool true)))⟩
  ∧ handleFetch ⟨some "secret-b"⟩ ⟨"GET", some "/__debug_key", none, none, ""⟩
        (.throws "x") (.throws "x")
      = handleFetch ⟨some "secret-a"⟩ ⟨"GET", some "/__debug_key", none, none, ""⟩
        (.throws "x") (.throws "x") := by
  have h := debug_key_response ⟨some "secret-a"⟩ ⟨"GET", some "/__debug_key", none, none, ""⟩
    (.throws "x") (.throws "x") rfl rfl
  exact ⟨h.1, h.2 ⟨some "secret-b"⟩ (by decide)⟩

/-! ## C9: the widget reset action -/

/-- C9: from any widget state, the reset action sets the history to exactly
the single system message, persists that single-element list, re-renders the
window to the initial greeting, and clears the input. -/
theorem reset_conversation_spec (s : WidgetState) :
    (resetConversation s).history = [getSystemMessage]
  ∧ (resetConversation s).storage = some (serializeHistory [getSystemMessage])
  ∧ (resetConversation s).view = ChatView.greeting
  ∧ (resetConversation s).inputValue = "" := by
  refine ⟨rfl, rfl, ?_, rfl⟩
  rfl

/-! ## C1: success passthrough of the completion upstream -/

theorem parseOrNull_eq_some {raw : String} {B : Json} (h : jsParse raw = some B) :
    parseOrNull raw = B := by
  rw [parseOrNull, h]
  rfl

theorem parseOrNull_eq_none {raw : String} (h : jsParse raw = none) :
    parseOrNull raw = .null := by
  rw [parseOrNull, h]
  rfl

/-- C1: for every valid completion-proxy request whose upstream call returns
a success status, (a) when the upstream body parses as JSON `B`, the relay
answers with the same status and a body deep-equal to `B` — its parse is
exactly `B` (the re-serialized parse, or the raw text itself when `B` is the
JSON null the code cannot distinguish from a parse failure); (b) when the
body does not parse, the raw text is forwarded verbatim with the upstream
status. -/
theorem upstream_success_roundtrip (env : WEnv) (req : WRequest) (mU : Upstream)
    (v : Json) (st : Nat) (stTxt : String) (ct : Option String) (raw : String)
    (h1 : req.method ≠ "OPTIONS") (h2 : req.path ≠ some "/__debug_key")
    (h3 : req.path ≠ some "/__debug_models") (h4 : keyTruthy env.apiKey = true)
    (hval : validateBody req = .ok v) (hok : statusOk st = true) :
    (∀ B : Json, jsParse raw = some B →
       (handleFetch env req mU (.resp st stTxt ct raw)).status = st
       ∧ ∃ body : String,
           (handleFetch env req mU (.resp st stTxt ct raw)).body = some body
           ∧ jsParse body = some B)
  ∧ (jsParse raw = none →
       handleFetch env req mU (.resp st stTxt ct raw) = ⟨st, mergeCT ct, some raw⟩) := by
  have hmain : handleFetch env req mU (.resp st stTxt ct raw)
      = completionRespond (.resp st stTxt ct raw) := by
    rw [handleFetch_completion env req mU _ h1 h2 h3 h4, hval]
  constructor
  · intro B hB
    rw [hmain, completionRespond_resp, if_neg (by rw [hok]; decide),
        parseOrNull_eq_some hB]
    by_cases hnull : B = Json.null
    · rw [if_pos hnull]
      exact ⟨rfl, raw, rfl, by rw [hB, hnull]⟩
    · rw [if_neg hnull]
      exact ⟨rfl, stringify B, rfl, jsParse_stringify B⟩
  · intro hB
    rw [hmain, completionRespond_resp, if_neg (by rw [hok]; decide),
        parseOrNull_eq_none hB, if_pos rfl]

/-- C1 witness: a mocked `200` upstream with JSON body is relayed with a body
that parses back to the same JSON value. -/
theorem upstream_success_roundtrip_witness :
    (handleFetch ⟨some "k"⟩
        ⟨"POST", some "/", some "application/json", none, "\x7b\"messages\":[0]\x7d"⟩
        (.throws "x")
        (.resp 200 "OK" (some "application/json") "\x7b\"a\":\"x\"\x7d")).status = 200
  ∧ ∃ body : String,
      (handleFetch ⟨some "k"⟩
        ⟨"POST", some "/", some "application/json", none, "\x7b\"messages\":[0]\x7d"⟩
        (.throws "x")
        (.resp 200 "OK" (some "application/json") "\x7b\"a\":\"x\"\x7d")).body = some body
      ∧ jsParse body = some (obj1 "a" (.str "x")) :=
  (upstream_success_roundtrip ⟨some "k"⟩
      ⟨"POST", some "/", some "application/json", none, "\x7b\"messages\":[0]\x7d"⟩
      (.throws "x") (obj1 "messages" (.arr (.cons (.num 0) .nil)))
      200 "OK" (some "application/json") "\x7b\"a\":\"x\"\x7d"
      (by decide) (by decide) (by decide) (by decide) (by rfl) (by decide)).1
    (obj1 "a" (.str "x")) (by rfl)

/-! ## C2: the upstream error envelope -/

/-- C2 counterexample: with a `404` upstream whose body is the five-byte text
`null`, `JSON.parse` SUCCEEDS (with the JSON null value), so the claim as
stated demands `detail: null`; the relay instead emits `detail: "null"` (the
raw text), because the code cannot distinguish a parsed null from a parse
failure. -/
theorem upstream_error_null_detail_counterexample :
    jsParse "null" = some Json.null
  ∧ (handleFetch ⟨some "k"⟩
        ⟨"POST", some "/", some "application/json", none, "\x7b\"messages\":[0]\x7d"⟩
        (.throws "x") (.resp 404 "Not Found" none "null")).body
      = some (stringify (errUpstream "Upstream API error" 404 (.str "null")))
  ∧ some (stringify (errUpstream "Upstream API error" 404 (.str "null")))
      ≠ some (stringify (errUpstream "Upstream API error" 404 Json.null)) := by
  exact ⟨rfl, rfl, by decide⟩

/-- C2 (amended): on a non-success upstream status the relay answers with the
same status and the envelope `{error: {message: "Upstream API error", status,
detail: D}}` where `D` is the parsed upstream body when the parse succeeds
with a non-null value; otherwise (parse failure, or a parsed JSON null) `D`
is the raw text when non-empty, else the status phrase when non-empty, else
the fixed placeholder. -/
theorem upstream_error_envelope (env : WEnv) (req : WRequest) (mU : Upstream)
    (v : Json) (st : Nat) (stTxt : String) (ct : Option String) (raw : String)
    (h1 : req.method ≠ "OPTIONS") (h2 : req.path ≠ some "/__debug_key")
    (h3 : req.path ≠ some "/__debug_models") (h4 : keyTruthy env.apiKey = true)
    (hval : validateBody req = .ok v) (hfail : statusOk st = false) :
    handleFetch env req mU (.resp st stTxt ct raw)
      = ⟨st, mergeCT ct, some (stringify (errUpstream "Upstream API error" st
          (match jsParse raw with
           | some b =>
             if b = Json.null then
               .str (if raw = "" then
                       (if stTxt = "" then "Empty response body from OpenAI" else stTxt)
                     else raw)
             else b
           | none =>
             .str (if raw = "" then
                     (if stTxt = "" then "Empty response body from OpenAI" else stTxt)
                   else raw))))⟩ := by
  have hmain : handleFetch env req mU (.resp st stTxt ct raw)
      = completionRespond (.resp st stTxt ct raw) := by
    rw [handleFetch_completion env req mU _ h1 h2 h3 h4, hval]
  rw [hmain, completionRespond_resp, if_pos hfail]
  cases hp : jsParse raw with
  | none => rw [parseOrNull_eq_none hp, if_pos rfl]
  | some b => rw [parseOrNull_eq_some hp]

/-- C2 witness: the spec test vector — upstream `404` with JSON `{msg:"x"}`
yields `404` and `{error:{message:"Upstream API error", status:404,
detail:{msg:"x"}}}`. -/
theorem upstream_error_envelope_witness :
    handleFetch ⟨some "k"⟩
        ⟨"POST", some "/", some "application/json", none, "\x7b\"messages\":[0]\x7d"⟩
        (.throws "x") (.resp 404 "Not Found" none "\x7b\"msg\":\"x\"\x7d")
      = ⟨404, corsHeaders, some (stringify (errUpstream "Upstream API error" 404
          (obj1 "msg" (.str "x"))))⟩ := by
  have h := upstream_error_envelope ⟨some "k"⟩
    ⟨"POST", some "/", some "application/json", none, "\x7b\"messages\":[0]\x7d"⟩
    (.throws "x") (obj1 "messages" (.arr (.cons (.num 0) .nil)))
    404 "Not Found" none "\x7b\"msg\":\"x\"\x7d"
    (by decide) (by decide) (by decide) (by decide) (by rfl) (by decide)
  rw [h]
  rfl

/-! ## C4: responses when the credential is missing -/

/-- C4 counterexample: with no credential configured, `GET /__debug_models`
does return `500`, but its error envelope has NO `type` member at all — the
claim that `error.type` is `server_error` on this branch is false. -/
theorem debug_models_missing_type_counterexample :
    (handleFetch ⟨none⟩ ⟨"GET", some "/__debug_models", none, none, ""⟩
        (.throws "x") (.throws "x")).status = 500
  ∧ (handleFetch ⟨none⟩ ⟨"GET", some "/__debug_models", none, none, ""⟩
        (.throws "x") (.throws "x")).body
      = some (stringify (errMsg "OPENAI_API_KEY missing; cannot query models."))
  ∧ (((jsParse (stringify (errMsg "OPENAI_API_KEY missing; cannot query models."))).bind
        fun e => jsGet e "error").bind fun e => jsGet e "type") = none := by
  exact ⟨rfl, rfl, by rfl⟩

/-- C4 (amended): with no credential configured, both endpoints respond
`500`; the completion proxy emits the `server_error`-typed envelope, while
`GET /__debug_models` emits an envelope holding only a message — it carries
no `type` member. -/
theorem missing_key_responses (env : WEnv) (req : WRequest) (mU cU : Upstream)
    (hkey : keyTruthy env.apiKey = false) (hm : req.method ≠ "OPTIONS") :
    (req.path = some "/__debug_models" →
       handleFetch env req mU cU
         = ⟨500, corsHeaders,
             some (stringify (errMsg "OPENAI_API_KEY missing; cannot query models."))⟩)
  ∧ (req.path ≠ some "/__debug_key" → req.path ≠ some "/__debug_models" →
       handleFetch env req mU cU
         = ⟨500, corsHeaders, some (stringify (errMsgType serverMisconfigMsg "server_error"))⟩
       ∧ (((jsParse (stringify (errMsgType serverMisconfigMsg "server_error"))).bind
            fun e => jsGet e "error").bind fun e => jsGet e "type")
           = some (.str "server_error")) := by
  constructor
  · intro hp
    by_cases hk : req.path = some "/__debug_key"
    · rw [hp] at hk
      exact absurd hk (by decide)
    · rw [handleFetch, if_neg hm, if_neg hk, if_pos hp, debugModelsRespond.eq_def,
          if_pos hkey]
  · intro hk hmod
    refine ⟨?_, ?_⟩
    · rw [handleFetch, if_neg hm, if_neg hk, if_neg hmod, if_pos hkey]
    · rw [jsParse_stringify]
      rfl

/-- C4 witness: the amended behaviour at a concrete key-less environment, on
the completion path. -/
theorem missing_key_responses_witness :
    handleFetch ⟨none⟩ ⟨"POST", some "/", some "application/json", none, "\x7b\x7d"⟩
        (.throws "x") (.throws "x")
      = ⟨500, corsHeaders, some (stringify (errMsgType serverMisconfigMsg "server_error"))⟩ :=
  ((missing_key_responses ⟨none⟩
      ⟨"POST", some "/", some "application/json", none, "\x7b\x7d"⟩
      (.throws "x") (.throws "x") (by decide) (by decide)).2
    (by decide) (by decide)).1

/-! ## C5 and C10: normalization of the upstream request body -/

theorem validateBody_ok (req : WRequest) (v : Json) (h : validateBody req = .ok v) :
    jsParseE req.body = .ok v
  ∧ ∃ x tl, jsGet v "messages" = some (.arr (.cons x tl)) := by
  rw [validateBody] at h
  split_ifs at h
  revert h
  cases hp : jsParseE req.body with
  | error m => intro h; cases h
  | ok u =>
    simp only
    split_ifs
    · intro h; cases h
    · cases hm : jsGet u "messages" with
      | none => intro h; cases h
      | some mv =>
        cases mv with
        | arr a =>
          cases a with
          | nil => intro h; cases h
          | cons x tl =>
            intro h
            cases h
            exact ⟨rfl, x, tl, hm⟩
        | null => intro h; cases h
        | bool b => intro h; cases h
        | num n => intro h; cases h
        | str s => intro h; cases h
        | obj o => intro h; cases h

theorem str_pos_of_ne_empty {s : String} (h : s ≠ "") : 0 < s.length := by
  cases s with
  | mk data =>
    cases data with
    | nil => exact absurd rfl h
    | cons c cs => simp [String.length]

/-- C5: for every validated completion-proxy request, the body sent upstream
is `{model, messages}` where `messages` is the validated (non-empty) array
verbatim, and `model` is the trimmed `model` string when that field is a
string with non-empty trim, the fixed default `gpt-4o` when absent or blank. -/
theorem normalized_upstream_body (req : WRequest) (v : Json)
    (hval : validateBody req = .ok v) :
    (∃ x tl, jsGet v "messages" = some (.arr (.cons x tl))
       ∧ requestBodyJson v
           = obj2 "model" (.str (normalizeModel v)) "messages" (.arr (.cons x tl))
       ∧ upstreamRequestBody v
           = stringify (obj2 "model" (.str (normalizeModel v)) "messages" (.arr (.cons x tl))))
  ∧ (jsGet v "model" = none → normalizeModel v = "gpt-4o")
  ∧ (∀ s : String, jsGet v "model" = some (.str s) → jsTrim s ≠ "" →
       normalizeModel v = jsTrim s)
  ∧ (∀ s : String, jsGet v "model" = some (.str s) → jsTrim s = "" →
       normalizeModel v = "gpt-4o") := by
  obtain ⟨-, x, tl, hm⟩ := validateBody_ok req v hval
  refine ⟨⟨x, tl, hm, ?_, ?_⟩, ?_, ?_, ?_⟩
  · rw [requestBodyJson, normalizedMessages, hm]
  · rw [upstreamRequestBody, requestBodyJson, normalizedMessages, hm]
  · intro h0
    simp only [normalizeModel, h0]
  · intro s hs hne
    simp only [normalizeModel, hs]
    rw [if_pos (str_pos_of_ne_empty hne)]
  · intro s hs he
    simp only [normalizeModel, hs, he]
    rw [if_neg (by decide : ¬(0 < ("" : String).length))]

/-- C5 witness: `model: "  gpt-x  "` is passed through trimmed, next to the
messages array verbatim. -/
theorem normalized_upstream_body_witness :
    validateBody ⟨"POST", some "/", none, none,
        "\x7b\"model\":\"  gpt-x  \",\"messages\":[0]\x7d"⟩
      = .ok (obj2 "model" (.str "  gpt-x  ") "messages" (.arr (.cons (.num 0) .nil)))
  ∧ normalizeModel (obj2 "model" (.str "  gpt-x  ") "messages" (.arr (.cons (.num 0) .nil)))
      = "gpt-x" := by
  have h := (normalized_upstream_body ⟨"POST", some "/", none, none,
      "\x7b\"model\":\"  gpt-x  \",\"messages\":[0]\x7d"⟩
      (obj2 "model" (.str "  gpt-x  ") "messages" (.arr (.cons (.num 0) .nil)))
      (by rfl)).2.2.1 "  gpt-x  " (by rfl) (by decide)
  exact ⟨by rfl, by rw [h]; rfl⟩

/-- C10: when the `model` field of a validated body is present but not a
string, the normalized model sent upstream is the fixed default `gpt-4o`,
exactly as when the field is absent or blank. -/
theorem model_non_string_default (req : WRequest) (v j : Json)
    (_hval : validateBody req = .ok v)
    (hm : jsGet v "model" = some j) (hns : ∀ s : String, j ≠ .str s) :
    normalizeModel v = "gpt-4o"
  ∧ requestBodyJson v = obj2 "model" (.str "gpt-4o") "messages" (normalizedMessages v) := by
  have hdef : normalizeModel v = "gpt-4o" := by
    simp only [normalizeModel, hm]
    cases j with
    | str s => exact absurd rfl (hns s)
    | null => rfl
    | bool b => rfl
    | num n => rfl
    | arr a => rfl
    | obj o => rfl
  exact ⟨hdef, by rw [requestBodyJson, hdef]⟩

/-- C10 witness: `model: true` (a boolean) normalizes to the default. -/
theorem model_non_string_default_witness :
    normalizeModel (obj2 "model" (.bool true) "messages" (.arr (.cons (.num 0) .nil)))
      = "gpt-4o" :=
  (model_non_string_default ⟨"POST", some "/", none, none,
      "\x7b\"model\":true,\"messages\":[0]\x7d"⟩
      (obj2 "model" (.bool true) "messages" (.arr (.cons (.num 0) .nil)))
      (.bool true) (by rfl) (by rfl)
      (fun s h => Json.noConfusion h)).1

/-! ## C3: the validation pipeline -/

/-- C3: on the completion path with the credential configured, validation
runs in source order and each failing check ends the request with a `400`
and its error envelope, independent of both upstreams (the pipeline stops):
(1) `Content-Length: 0`; (2) a present content type without
`application/json`; (3) a JSON parse failure, its message included as
`details`; (4) a parsed body that is not an object (for an array the code
falls through to the messages check, so only its envelope message differs);
(5) a `messages` member that is not an array or is the empty array. -/
theorem validation_pipeline (env : WEnv) (req : WRequest)
    (h1 : req.method ≠ "OPTIONS") (h2 : req.path ≠ some "/__debug_key")
    (h3 : req.path ≠ some "/__debug_models") (h4 : keyTruthy env.apiKey = true) :
    (req.contentLength = some "0" →
       ∀ u1 u2, handleFetch env req u1 u2 = resp400 (errMsg "Empty request body"))
  ∧ (req.contentLength ≠ some "0" →
     jsToLower (req.contentType.getD "") ≠ "" →
     strIncludes (jsToLower (req.contentType.getD "")) "application/json" = false →
       ∀ u1 u2, handleFetch env req u1 u2
         = resp400 (errMsg "Content-Type must be application/json"))
  ∧ (∀ m : String, req.contentLength ≠ some "0" →
     (jsToLower (req.contentType.getD "") = ""
       ∨ strIncludes (jsToLower (req.contentType.getD "")) "application/json" = true) →
     jsParseE req.body = .error m →
       ∀ u1 u2, handleFetch env req u1 u2
         = resp400 (obj1 "error"
             (obj2 "message" (.str "Invalid JSON body") "details" (.str m))))
  ∧ (∀ w : Json, req.contentLength ≠ some "0" →
     (jsToLower (req.contentType.getD "") = ""
       ∨ strIncludes (jsToLower (req.contentType.getD "")) "application/json" = true) →
     jsParseE req.body = .ok w →
     (∀ o : JsonObj, w ≠ .obj o) →
       ∃ msg : String, ∀ u1 u2, handleFetch env req u1 u2 = resp400 (errMsg msg))
  ∧ (∀ o : JsonObj, req.contentLength ≠ some "0" →
     (jsToLower (req.contentType.getD "") = ""
       ∨ strIncludes (jsToLower (req.contentType.getD "")) "application/json" = true) →
     jsParseE req.body = .ok (.obj o) →
     (∀ x tl, jsGet (.obj o) "messages" ≠ some (.arr (.cons x tl))) →
       ∀ u1 u2, handleFetch env req u1 u2
         = resp400 (errMsg "Request body must include a messages array with at least one item.")) := by
  have hnotand : ∀ hctok : (jsToLower (req.contentType.getD "") = ""
       ∨ strIncludes (jsToLower (req.contentType.getD "")) "application/json" = true),
      ¬(jsToLower (req.contentType.getD "") ≠ ""
        ∧ strIncludes (jsToLower (req.contentType.getD "")) "application/json" = false) := by
    intro hctok hand
    cases hctok with
    | inl hc => exact hand.1 hc
    | inr hc => rw [hand.2] at hc; cases hc
  refine ⟨?_, ?_, ?_, ?_, ?_⟩
  · intro hcl u1 u2
    rw [handleFetch_completion env req u1 u2 h1 h2 h3 h4]
    rw [validateBody, if_pos hcl]
  · intro hcl hct1 hct2 u1 u2
    rw [handleFetch_completion env req u1 u2 h1 h2 h3 h4]
    rw [validateBody, if_neg hcl, if_pos ⟨hct1, hct2⟩]
  · intro m hcl hctok hparse u1 u2
    rw [handleFetch_completion env req u1 u2 h1 h2 h3 h4]
    rw [validateBody, if_neg hcl, if_neg (hnotand hctok), hparse]
  · intro w hcl hctok hparse hnobj
    cases w with
    | obj o => exact absurd rfl (hnobj o)
    | arr a =>
      refine ⟨"Request body must include a messages array with at least one item.",
        fun u1 u2 => ?_⟩
      rw [handleFetch_completion env req u1 u2 h1 h2 h3 h4]
      simp only [validateBody, if_neg hcl, if_neg (hnotand hctok), hparse,
        if_neg (show ¬(jsTruthy (.arr a) = false ∨ jsTypeofObject (.arr a) = false) from by
          intro hor; cases hor with
          | inl hh => cases hh
          | inr hh => cases hh),
        show jsGet (Json.arr a) "messages" = none from rfl]
    | null =>
      refine ⟨"Request body must be a JSON object with a messages array.",
        fun u1 u2 => ?_⟩
      rw [handleFetch_completion env req u1 u2 h1 h2 h3 h4]
      simp only [validateBody, if_neg hcl, if_neg (hnotand hctok), hparse,
        if_pos (Or.inl (show jsTruthy Json.null = false from rfl))]
    | bool b =>
      refine ⟨"Request body must be a JSON object with a messages array.",
        fun u1 u2 => ?_⟩
      rw [handleFetch_completion env req u1 u2 h1 h2 h3 h4]
      simp only [validateBody, if_neg hcl, if_neg (hnotand hctok), hparse,
        if_pos (Or.inr (show jsTypeofObject (Json.bool b) = false from rfl))]
    | num n =>
      refine ⟨"Request body must be a JSON object with a messages array.",
        fun u1 u2 => ?_⟩
      rw [handleFetch_completion env req u1 u2 h1 h2 h3 h4]
      simp only [validateBody, if_neg hcl, if_neg (hnotand hctok), hparse,
        if_pos (Or.inr (show jsTypeofObject (Json.num n) = false from rfl))]
    | str s =>
      refine ⟨"Request body must be a JSON object with a messages array.",
        fun u1 u2 => ?_⟩
      rw [handleFetch_completion env req u1 u2 h1 h2 h3 h4]
      simp only [validateBody, if_neg hcl, if_neg (hnotand hctok), hparse,
        if_pos (Or.inr (show jsTypeofObject (Json.str s) = false from rfl))]
  · intro o hcl hctok hparse hnem u1 u2
    rw [handleFetch_completion env req u1 u2 h1 h2 h3 h4]
    simp only [validateBody, if_neg hcl, if_neg (hnotand hctok), hparse,
      if_neg (show ¬(jsTruthy (.obj o) = false ∨ jsTypeofObject (.obj o) = false) from by
        intro hor; cases hor with
        | inl hh => cases hh
        | inr hh => cases hh)]


/-- C3 witness: a concrete request with `Content-Length: 0` is rejected with
the empty-body envelope regardless of the upstreams. -/
theorem validation_pipeline_witness :
    handleFetch ⟨some "k"⟩ ⟨"POST", some "/", none, some "0", ""⟩ (.throws "x") (.throws "y")
      = resp400 (errMsg "Empty request body") :=
  (validation_pipeline ⟨some "k"⟩ ⟨"POST", some "/", none, some "0", ""⟩
    (by decide) (by decide) (by decide) (by decide)).1 rfl (.throws "x") (.throws "y")

end Loreal
